import Mathlib

/-!
Shallow embedding of the price/metadata ingestion pipeline of the
PKMN-Cataloguer repository, together with proofs about its behaviour.

The embedding covers:
  * `app/services/pricecharting_scraper.py` — price-text parsing, product-page
    price extraction, search-result price extraction, offers-page redirection;
  * `app/services/parser.py` — the free-text query parser;
  * `app/services/tcgdx_api.py` — candidate scoring / best-match selection and
    API-record normalisation;
  * `app/services/metadata_refresh.py` / `app/services/pricing_refresh.py` —
    the per-item orchestrator loop, its ledger bookkeeping and terminal status;
  * `app/api/routes_settings.py` — the manual-trigger admission guards.

Python strings are modelled as Lean `String` / `List Char` (the data handled by
the pipeline is ASCII).  Python `float` values are modelled as exact
unreduced natural-number fractions together with an explicit IEEE-754
binary64 round-to-nearest-even rounding function, so claims about the cent
conversion are settled against the actual double-precision arithmetic the
code performs.
-/

namespace Cataloguer

/-! ## Python string primitives -/

/-- Regex `\w` (ASCII): letters, digits and underscore. -/
def isWordChar (c : Char) : Bool := c.isAlphanum || c == '_'

/-- Python `str.strip()`: drop leading and trailing whitespace. -/
def pyStrip (s : String) : String :=
  String.mk (((s.toList.dropWhile Char.isWhitespace).reverse.dropWhile
    Char.isWhitespace).reverse)

/-- Substring containment on character lists (Python `pat in hay`);
the empty pattern is contained in everything. -/
def listContainsSub (hay pat : List Char) : Bool :=
  match hay with
  | [] => pat.isEmpty
  | _ :: rest => pat.isPrefixOf hay || listContainsSub rest pat

/-- Python `pat in hay` on strings. -/
def strContains (hay pat : String) : Bool :=
  listContainsSub hay.toList pat.toList

/-- Python `str.split()` with no argument: split on whitespace runs,
discarding empty pieces. -/
def pySplit (s : String) : List String :=
  ((s.toList.splitOnP Char.isWhitespace).filter (fun w => !w.isEmpty)).map
    String.mk

/-- Value of a (non-empty) ASCII digit string. -/
def digitsToNat (ds : List Char) : ℕ :=
  ds.foldl (fun acc c => 10 * acc + (c.toNat - '0'.toNat)) 0

/-- Python `str.isdigit()` (ASCII fragment): non-empty and all digits. -/
def pyIsDigit (s : String) : Bool :=
  !s.toList.isEmpty && s.toList.all Char.isDigit

/-- Python `str.lower()` (ASCII fragment). -/
def pyLower (s : String) : String :=
  String.mk (s.toList.map Char.toLower)

/-- Python `str.startswith(pre)`. -/
def strStartsWith (s pre : String) : Bool :=
  pre.toList.isPrefixOf s.toList

/-- Python `str.replace(c, "")` for a single-character pattern: drop every
occurrence of `c`. -/
def pyRemoveChar (s : String) (c : Char) : String :=
  String.mk (s.toList.filter (fun x => x ≠ c))

/-! ## IEEE-754 binary64 model

`app/services/pricecharting_scraper.py::_parse_price_text` computes
`int(float(price_str) * 100)`.  `float(...)` parses a decimal string to the
nearest binary64 value and `*` rounds the exact product back to binary64;
both use round-to-nearest, ties-to-even.  The values reaching this code are
non-negative decimals, so we model binary64 values as exact non-negative
rationals, represented as unreduced numerator/denominator pairs of naturals
(kernel-computable; no `Rat` normalisation), and implement the rounding for
the normal range — prices are far away from subnormal/overflow territory. -/

/-- Fuel-bounded `⌊log₂ n⌋` (any fuel ≥ n is exact); structural recursion so
that kernel reduction can evaluate it. -/
def natLog2Fuel : ℕ → ℕ → ℕ
  | 0, _ => 0
  | f + 1, n => if 2 ≤ n then natLog2Fuel f (n / 2) + 1 else 0

/-- `⌊log₂ n⌋` (0 for `n = 0`). -/
def natLog2 (n : ℕ) : ℕ := natLog2Fuel n n

/-- Least `k` with `a·2^k ≥ b`, searched with fuel (fuel ≥ b suffices for
`a ≥ 1`). -/
def negExpFuel : ℕ → ℕ → ℕ → ℕ
  | 0, _, _ => 0
  | f + 1, a, b => if b ≤ a then 0 else negExpFuel f (2 * a) b + 1

/-- Binary exponent of the positive fraction `a / b`: the `e` with
`2^e ≤ a/b < 2^(e+1)`. -/
def fracExp2 (a b : ℕ) : ℤ :=
  if b ≤ a then (natLog2 (a / b) : ℤ) else -(negExpFuel b a b : ℤ)

/-- Round the non-negative fraction `a / b` to the nearest integer, ties to
even. -/
def roundHalfEvenFrac (a b : ℕ) : ℕ :=
  let n := a / b
  let r := a % b
  if 2 * r < b then n
  else if b < 2 * r then n + 1
  else if n % 2 = 0 then n else n + 1

/-- The 53-bit significand of `a / b` scaled by `2^(52-e)` and rounded to
nearest-even. -/
def roundSigFrac (a b : ℕ) (e : ℤ) : ℕ :=
  if 0 ≤ 52 - e then roundHalfEvenFrac (a * 2 ^ (52 - e).toNat) b
  else roundHalfEvenFrac a (b * 2 ^ (e - 52).toNat)

/-- Round the non-negative fraction `a / b` (`b ≠ 0`) to the nearest binary64
value, returned again as a fraction. -/
def roundDoubleFrac (a b : ℕ) : ℕ × ℕ :=
  if a = 0 then (0, 1)
  else
    let e := fracExp2 a b
    let m := roundSigFrac a b e
    if 52 ≤ e then (m * 2 ^ (e - 52).toNat, 1) else (m, 2 ^ (52 - e).toNat)

/-! ## `PriceChartingScraper._parse_price_text`

The regex is `\$(\d+(?:,\d{3})*(?:\.\d{2})?)`.  After the `$` sign the pattern
is deterministic (no backtracking can change the outcome): a greedy digit run,
then greedy `,ddd` groups, then an optional `.dd` suffix. -/

/-- Greedy `(?:,\d{3})*`: returns the matched text and the remaining input. -/
def commaGroups : List Char → List Char × List Char
  | ',' :: a :: b :: c :: rest =>
    if a.isDigit && b.isDigit && c.isDigit then
      let p := commaGroups rest
      (',' :: a :: b :: c :: p.1, p.2)
    else ([], ',' :: a :: b :: c :: rest)
  | cs => ([], cs)

/-- Optional `(?:\.\d{2})?`: the matched text (possibly empty). -/
def dotGroup : List Char → List Char
  | '.' :: a :: b :: _ => if a.isDigit && b.isDigit then ['.', a, b] else []
  | _ => []

/-- The capture group of `\$(\d+(?:,\d{3})*(?:\.\d{2})?)` matched immediately
after a `$`, or `none` when no digit follows. -/
def priceGroupAfterDollar (cs : List Char) : Option (List Char) :=
  let ds := cs.takeWhile Char.isDigit
  if ds.isEmpty then none
  else
    let rest := cs.drop ds.length
    let p := commaGroups rest
    some (ds ++ p.1 ++ dotGroup p.2)

/-- `re.search` scanning for the price pattern: first `$` at which the pattern
matches wins. -/
def findPriceGroup : List Char → Option (List Char)
  | [] => none
  | '$' :: rest =>
    match priceGroupAfterDollar rest with
    | some g => some g
    | none => findPriceGroup rest
  | _ :: rest => findPriceGroup rest

/-- Exact decimal value of the captured group after `.replace(',', '')`,
as an unreduced fraction: digits, optionally followed by `.` and two digits. -/
def decimalToFrac (g : List Char) : ℕ × ℕ :=
  let g' := g.filter (fun c => c ≠ ',')
  let ip := g'.takeWhile (fun c => c ≠ '.')
  let rest := g'.drop ip.length
  match rest with
  | _ :: frac => (digitsToNat ip * 100 + digitsToNat frac, 100)
  | [] => (digitsToNat ip, 1)

/-- `PriceChartingScraper._parse_price_text` (pricecharting_scraper.py:754):
extract `\$(\d+(?:,\d{3})*(?:\.\d{2})?)`, strip commas, then compute
`int(float(price_str) * 100)`: round the decimal to binary64, multiply by 100
and round again, truncate (the value is non-negative, so `int()` is floor
division). -/
def parsePriceText (s : String) : Option ℤ :=
  match findPriceGroup s.toList with
  | none => none
  | some g =>
    let q := decimalToFrac g
    let d1 := roundDoubleFrac q.1 q.2
    let d2 := roundDoubleFrac (d1.1 * 100) d1.2
    some ((d2.1 / d2.2 : ℕ) : ℤ)

/-! ## `PriceChartingScraper._parse_prices_from_html`

BeautifulSoup is an external library; we model the parts of the parsed page
this function consumes: the page's full text, whether an `h1` matching
`404|not found` exists, the list of `<td class="price js-price">` cells in
document order (each with its own text and the text of its enclosing `<tr>`,
when one exists), and the output of `_extract_product_metadata` (an abstract
key/value list — no claim depends on its internals). -/

/-- One `<td class="price js-price">` element: its text and the text of its
parent `<tr>` (`none` when the cell has no enclosing row). -/
structure PriceCell where
  text : String
  rowText : Option String
  deriving DecidableEq, Repr

/-- The BeautifulSoup view of a product page that
`_parse_prices_from_html` consumes. -/
structure ProductPage where
  fullText : String := ""
  hasNotFoundH1 : Bool := false
  priceCells : List PriceCell := []
  metadata : List (String × String) := []
  deriving DecidableEq, Repr

/-- The four grade buckets tracked by the scraper. -/
inductive GradeBucket
  | ungraded
  | psa9
  | psa10
  | bgs10
  deriving DecidableEq, Repr

/-- The `prices` dict keyed by the four `*_cents` grade types. -/
structure GradePrices where
  ungraded_cents : Option ℤ := none
  psa9_cents : Option ℤ := none
  psa10_cents : Option ℤ := none
  bgs10_cents : Option ℤ := none
  deriving DecidableEq, Repr

/-- `prices` dict truthiness: empty iff no bucket was recorded. -/
def GradePrices.isEmpty (p : GradePrices) : Bool :=
  p.ungraded_cents.isNone && p.psa9_cents.isNone &&
    p.psa10_cents.isNone && p.bgs10_cents.isNone

/-- The sub-grade markers that disqualify an `ungraded` row
(pricecharting_scraper.py:421). -/
def subGradeMarkers : List String :=
  ["grade 1", "grade 2", "grade 3", "grade 4", "grade 5", "grade 6", "grade 7"]

/-- Row-to-bucket classification (pricecharting_scraper.py:417-432), applied
to the lower-cased stripped row text.  The `if/elif` chain assigns at most one
bucket; an `ungraded` row with a sub-grade marker and a `psa 10`/`bgs 10` row
with a disqualifying word map to no bucket at all. -/
def classifyRow (rowText : String) : Option GradeBucket :=
  if strContains rowText "ungraded" then
    if subGradeMarkers.any (fun sub => strContains rowText sub) then none
    else some .ungraded
  else if strContains rowText "psa 10" then
    if !strContains rowText "black" && !strContains rowText "pristine" then
      some .psa10
    else none
  else if strContains rowText "psa 9" then some .psa9
  else if strContains rowText "bgs 10" then
    if !strContains rowText "black" then some .bgs10 else none
  else none

/-- `prices[grade_type] = price_value` guarded by
`grade_type not in prices`: only the first value per bucket is kept. -/
def setBucket (p : GradePrices) (b : GradeBucket) (v : ℤ) : GradePrices :=
  match b with
  | .ungraded =>
    if p.ungraded_cents.isNone then { p with ungraded_cents := some v } else p
  | .psa9 =>
    if p.psa9_cents.isNone then { p with psa9_cents := some v } else p
  | .psa10 =>
    if p.psa10_cents.isNone then { p with psa10_cents := some v } else p
  | .bgs10 =>
    if p.bgs10_cents.isNone then { p with bgs10_cents := some v } else p

/-- Bucket lookup, for stating properties. -/
def GradePrices.get (p : GradePrices) : GradeBucket → Option ℤ
  | .ungraded => p.ungraded_cents
  | .psa9 => p.psa9_cents
  | .psa10 => p.psa10_cents
  | .bgs10 => p.bgs10_cents

/-- The loop body of `_parse_prices_from_html` (pricecharting_scraper.py:
401-435) for one price cell.  `if not price_value: continue` skips both a
failed parse and a parse that returned 0 (Python falsiness). -/
def processPriceCell (p : GradePrices) (cell : PriceCell) : GradePrices :=
  match parsePriceText (pyStrip cell.text) with
  | none => p
  | some v =>
    if v = 0 then p
    else
      match cell.rowText with
      | none => p
      | some rt =>
        match classifyRow (pyLower (pyStrip rt)) with
        | none => p
        | some b => setBucket p b v

/-- Result of `_parse_prices_from_html`: the `prices` dict (or `None` when
empty) and the metadata dict. -/
structure ParsedPage where
  prices : Option GradePrices
  metadata : List (String × String)
  deriving DecidableEq, Repr

/-- `PriceChartingScraper._parse_prices_from_html`
(pricecharting_scraper.py:383-458): not-found detection, the per-cell price
loop, and the `result if prices or metadata else None` return. -/
def parsePricesFromHtml (page : ProductPage) : Option ParsedPage :=
  if strContains (pyLower page.fullText) "not found" || page.hasNotFoundH1 then
    none
  else
    let prices := page.priceCells.foldl processPriceCell {}
    if !prices.isEmpty || !page.metadata.isEmpty then
      some { prices := if prices.isEmpty then none else some prices
             metadata := page.metadata }
    else none

/-! ## `PriceChartingScraper._extract_search_result_data` (prices fragment)

Only the pricebox fragment (pricecharting_scraper.py:671-680) is claimed
about: the text of the `<p class="price">` element inside the
`<td class="pricebox">` cell is parsed, and `result["prices"]` is set only
when the parsed value is truthy. -/

/-- The headline `prices` entry of one search-result row: `some v` exactly
when the code sets `result["prices"] = {"ungraded_cents": v}`. -/
def searchResultPrices (priceboxText : Option String) : Option ℤ :=
  match priceboxText with
  | none => none
  | some t =>
    match parsePriceText (pyStrip t) with
    | none => none
    | some v => if v = 0 then none else some v

/-! ## `scrape_product_page_with_url` and the offers-page redirection -/

/-- An `<a>` element: its text content and `href` attribute. -/
structure Link where
  text : String
  href : String
  deriving DecidableEq, Repr

/-- The BeautifulSoup view of a fetched page as `scrape_product_page_with_url`
consumes it: its links (for `_extract_pricing_page_url`) and its
product-page view (for `_parse_prices_from_html`). -/
structure PageHtml where
  links : List Link
  product : ProductPage
  deriving DecidableEq, Repr

/-- An HTTP response: the parsed body plus `str(response.url)`, the URL after
transport-level redirects. -/
structure FetchResult where
  html : PageHtml
  responseUrl : String
  deriving DecidableEq, Repr

def BASE_URL : String := "https://www.pricecharting.com"

/-- Resolve an href against `BASE_URL` when it is site-relative. -/
def resolveHref (href : String) : String :=
  if strStartsWith href "/" then BASE_URL ++ href else href

/-- The URL-pattern fallback of `_extract_pricing_page_url`
(pricecharting_scraper.py:1015-1021): the first link whose href contains
`/game/pokemon-`. -/
def pricingPageUrlFallback (html : PageHtml) : Option String :=
  match html.links.find? (fun l => strContains l.href "/game/pokemon-") with
  | some l => some (resolveHref l.href)
  | none => none

/-- `PriceChartingScraper._extract_pricing_page_url`
(pricecharting_scraper.py:1002-1036): the first link whose text matches
`See Historic Prices` (case-insensitive substring) when that link's href is
non-empty (`if pricing_link and pricing_link.get("href")`); in every other
case — no such link, or its href empty/absent — control falls through to the
`/game/pokemon-` URL-pattern fallback. -/
def extractPricingPageUrl (html : PageHtml) : Option String :=
  match html.links.find?
      (fun l => strContains (pyLower l.text) "see historic prices") with
  | some l =>
    if l.href ≠ "" then some (resolveHref l.href)
    else pricingPageUrlFallback html
  | none => pricingPageUrlFallback html

/-- The non-redirecting tail of `scrape_product_page_with_url`
(pricecharting_scraper.py:818-844): parse the fetched page and return the
pricing data, metadata and the final resolved URL. -/
structure ScrapeResult where
  pricing_data : Option GradePrices
  metadata : List (String × String)
  final_url : String
  deriving DecidableEq, Repr

/-- Build the result dict from a fetched response (the non-offers branch). -/
def directScrapeResult (r : FetchResult) : ScrapeResult :=
  match parsePricesFromHtml r.html.product with
  | some parsed =>
    { pricing_data := parsed.prices
      metadata := parsed.metadata
      final_url := r.responseUrl }
  | none =>
    { pricing_data := none, metadata := [], final_url := r.responseUrl }

/-- `PriceChartingScraper.scrape_product_page_with_url`
(pricecharting_scraper.py:775-864), cold-cache path.  `fetch` abstracts the
HTTP GET (returning `none` on a transport error, which the code converts to a
`None` result).  The Python recursion is unbounded; `fuel` bounds it in the
model, and the theorems show one unit of recursion suffices under the
precondition that the canonical page is not an offers page. -/
def scrapeProductPageWithUrl (fetch : String → Option FetchResult) :
    ℕ → String → Option ScrapeResult
  | 0, _ => none
  | fuel + 1, url =>
    if pyStrip url = "" then none
    else
      match fetch url with
      | none => none
      | some r =>
        if strContains url "/offers?product=" then
          match extractPricingPageUrl r.html with
          | some pricingPageUrl =>
            scrapeProductPageWithUrl fetch fuel pricingPageUrl
          | none => some (directScrapeResult r)
        else some (directScrapeResult r)

/-! ## `QueryParser` (app/services/parser.py)

The two regexes are embedded with Python `re` semantics (leftmost match,
greedy quantifiers with backtracking, `\b` word boundaries, `(?!\w)` negative
lookahead).  The input is lower-cased before both are applied, so the
`re.IGNORECASE` flag on `FLAGS_PATTERN` is inert. -/

/-- `(?!\w)`: the next character (if any) is not a word character. -/
def notWordAt : List Char → Bool
  | [] => true
  | c :: _ => !isWordChar c

/-- `/\d{1,3}` followed by `(?!\w)`, with the digit count tried greedily:
returns the number of characters consumed by the optional group when it (and
the lookahead) matches. -/
def nmSlash (rest : List Char) : Option ℕ :=
  match rest with
  | '/' :: r2 =>
    let tryLen : ℕ → Option ℕ := fun j =>
      let ds := r2.take j
      if ds.length = j && ds.all Char.isDigit && notWordAt (r2.drop j) then
        some (1 + j)
      else none
    (tryLen 3).orElse fun _ => (tryLen 2).orElse fun _ => tryLen 1
  | _ => none

/-- `NUMBER_PATTERN = (?P<num>\d{1,3})(?:/(?P<of>\d{1,3}))?(?!\w)` tried at
the head of `cs` with `num` of width exactly `k`: the captured `num` group and
the total match length. -/
def nmWithNum (cs : List Char) (k : ℕ) : Option (List Char × ℕ) :=
  let num := cs.take k
  if num.length = k && num.all Char.isDigit then
    let rest := cs.drop k
    match nmSlash rest with
    | some extra => some (num, k + extra)
    | none => if notWordAt rest then some (num, k) else none
  else none

/-- `NUMBER_PATTERN` matched at the head of `cs` (greedy in the `num` width). -/
def nmAt (cs : List Char) : Option (List Char × ℕ) :=
  (nmWithNum cs 3).orElse fun _ =>
    (nmWithNum cs 2).orElse fun _ => nmWithNum cs 1

/-- `NUMBER_PATTERN.search`: the `num` group of the leftmost match. -/
def nmSearch : List Char → Option (List Char)
  | [] => none
  | c :: rest =>
    match nmAt (c :: rest) with
    | some (g, _) => some g
    | none => nmSearch rest

/-- `NUMBER_PATTERN.sub('', ·)`, fuel-bounded so that the recursion is
structural (a match always consumes at least one character, so any fuel
≥ the input length is exact). -/
def nmSubFuel : ℕ → List Char → List Char
  | 0, cs => cs
  | _ + 1, [] => []
  | f + 1, c :: rest =>
    match nmAt (c :: rest) with
    | some (_, len) => nmSubFuel f (rest.drop (len - 1))
    | none => c :: nmSubFuel f rest

/-- `NUMBER_PATTERN.sub('', ·)`: remove every (leftmost, non-overlapping)
match. -/
def nmSub (cs : List Char) : List Char := nmSubFuel cs.length cs

/-- One alternative of `FLAGS_PATTERN` tried at the head of `cs`: the literal
`lit` followed by the trailing `\b`. -/
def flagLit (cs : List Char) (lit : List Char) : Option (List Char × ℕ) :=
  if lit.isPrefixOf cs && notWordAt (cs.drop lit.length) then
    some (lit, lit.length)
  else none

/-- The `v[- ]?star` alternative (with trailing `\b`). -/
def flagVStar (cs : List Char) : Option (List Char × ℕ) :=
  match cs with
  | 'v' :: rest =>
    match rest with
    | sep :: r2 =>
      if (sep = '-' || sep = ' ') && ['s', 't', 'a', 'r'].isPrefixOf r2 &&
          notWordAt (r2.drop 4) then
        some ('v' :: sep :: ['s', 't', 'a', 'r'], 6)
      else if ['s', 't', 'a', 'r'].isPrefixOf rest && notWordAt (rest.drop 4)
          then some ('v' :: ['s', 't', 'a', 'r'], 5)
      else none
    | [] => none
  | _ => none

/-- The `full\s*art` alternative (greedy whitespace, trailing `\b`). -/
def flagFullArt (cs : List Char) : Option (List Char × ℕ) :=
  if ['f', 'u', 'l', 'l'].isPrefixOf cs then
    let rest := cs.drop 4
    let ws := rest.takeWhile Char.isWhitespace
    let r2 := rest.drop ws.length
    if ['a', 'r', 't'].isPrefixOf r2 && notWordAt (r2.drop 3) then
      some (['f', 'u', 'l', 'l'] ++ ws ++ ['a', 'r', 't'], 4 + ws.length + 3)
    else none
  else none

/-- The `v\b` alternative (its inner `\b` coincides with the trailing one). -/
def flagV (cs : List Char) : Option (List Char × ℕ) :=
  match cs with
  | 'v' :: rest => if notWordAt rest then some (['v'], 1) else none
  | _ => none

/-- `FLAGS_PATTERN`'s alternation, tried in source order at the head of `cs`
(the leading `\b` is checked by the caller). -/
def flagAltAt (cs : List Char) : Option (List Char × ℕ) :=
  (flagLit cs ['g', 'x']).orElse fun _ =>
  (flagLit cs ['e', 'x']).orElse fun _ =>
  (flagLit cs ['v', 'm', 'a', 'x']).orElse fun _ =>
  (flagVStar cs).orElse fun _ =>
  (flagV cs).orElse fun _ =>
  (flagFullArt cs).orElse fun _ =>
  (flagLit cs ['r', 'e', 'v', 'e', 'r', 's', 'e']).orElse fun _ =>
  (flagLit cs ['h', 'o', 'l', 'o']).orElse fun _ =>
  flagLit cs ['s', 'h', 'a', 'd', 'o', 'w', 'l', 'e', 's', 's']

/-- `FLAGS_PATTERN.findall`, fuel-bounded (structural; fuel ≥ input length is
exact): scan left-to-right tracking whether the previous character was a word
character (for the leading `\b`). -/
def flagsFindallFuel : ℕ → Bool → List Char → List (List Char)
  | 0, _, _ => []
  | _ + 1, _, [] => []
  | f + 1, prevW, c :: rest =>
    match if prevW then none else flagAltAt (c :: rest) with
    | some (m, len) => m :: flagsFindallFuel f true (rest.drop (len - 1))
    | none => flagsFindallFuel f (isWordChar c) rest

/-- `FLAGS_PATTERN.findall`. -/
def flagsFindall (prevW : Bool) (cs : List Char) : List (List Char) :=
  flagsFindallFuel cs.length prevW cs

/-- `FLAGS_PATTERN.sub('', ·)`, fuel-bounded (structural; fuel ≥ input length
is exact). -/
def flagsSubFuel : ℕ → Bool → List Char → List Char
  | 0, _, cs => cs
  | _ + 1, _, [] => []
  | f + 1, prevW, c :: rest =>
    match if prevW then none else flagAltAt (c :: rest) with
    | some (_, len) => flagsSubFuel f true (rest.drop (len - 1))
    | none => c :: flagsSubFuel f (isWordChar c) rest

/-- `FLAGS_PATTERN.sub('', ·)`. -/
def flagsSub (prevW : Bool) (cs : List Char) : List Char :=
  flagsSubFuel cs.length prevW cs

/-- Flag normalisation (parser.py:56-66): strip spaces/hyphens, then collapse
the `v`/`vstar`/`fullart` spellings. -/
def normFlag (m : String) : String :=
  let f := pyRemoveChar (pyRemoveChar m ' ') '-'
  if f = "v" then "v"
  else if strContains f "vstar" then "vstar"
  else if strContains f "fullart" then "fullart"
  else f

/-- Add to the Python `set` of flags (membership-deduplicating). -/
def insertFlag (flags : List String) (f : String) : List String :=
  if flags.contains f then flags else flags ++ [f]

/-- `QueryParser.SET_HINTS` (parser.py:27-38). -/
def SET_HINTS : List String :=
  ["base", "jungle", "fossil", "rocket", "gym", "neo", "discovery",
   "destiny", "revelation", "genesis", "expedition", "aquapolis",
   "skyridge", "ruby", "sapphire", "emerald", "diamond", "pearl",
   "platinum", "heartgold", "soulsilver", "black", "white", "xy",
   "sun", "moon", "sword", "shield", "brilliant", "legends",
   "scarlet", "violet", "sv", "sm", "bw", "dp", "ex", "e",
   "151", "25th", "anniversary", "celebrations", "evolutions",
   "generations", "shining", "hidden", "fates", "crimson", "invasion",
   "astral", "radiance", "lost", "origin", "silver", "tempest",
   "paradigm", "trigger", "crown", "zenith", "paldea", "evolved"]

/-- `STANDALONE_NUMBER_PATTERN.match(word)`: `\b(?P<num>\d{1,3})\b` anchored
at position 0 of `word`. -/
def standaloneNumMatch (cs : List Char) : Bool :=
  match cs with
  | [] => false
  | c :: _ =>
    let tryK : ℕ → Bool := fun k =>
      let ds := cs.take k
      ds.length = k && ds.all Char.isDigit && notWordAt (cs.drop k)
    isWordChar c && (tryK 3 || tryK 2 || tryK 1)

/-- State threaded through the word loop of `QueryParser.parse`
(parser.py:76-103): the mutable `query_words`, the captured `number` and the
accumulated `hints`. -/
structure WordLoopState where
  words : List String
  number : Option String
  hints : List String
  deriving DecidableEq, Repr

/-- One iteration of the word loop (parser.py:76-103).  `flagsNonempty` is
the truthiness of the already-extracted `flags` set. -/
def processWord (flagsNonempty : Bool) (st : WordLoopState) (w : String) :
    WordLoopState :=
  if SET_HINTS.contains w then
    if !pyIsDigit w then
      { st with hints := st.hints ++ [w], words := st.words.erase w }
    else
      match st.number with
      | none =>
        if flagsNonempty then
          { st with number := some w, words := st.words.erase w }
        else
          { st with hints := st.hints ++ [w], words := st.words.erase w }
      | some _ =>
        { st with hints := st.hints ++ [w], words := st.words.erase w }
  else if pyIsDigit w && st.number.isNone && flagsNonempty then
    if standaloneNumMatch w.toList then
      { st with number := some w, words := st.words.erase w }
    else st
  else st

/-- `ParsedQuery` (parser.py:6-12); the Python `set` of flags is modelled as a
duplicate-free list in first-insertion order. -/
structure ParsedQuery where
  name_tokens : List String
  number : Option String
  flags : List String
  hints : List String
  deriving DecidableEq, Repr

/-- `QueryParser.parse` (parser.py:40-113). -/
def QueryParser.parse (query : String) : ParsedQuery :=
  let q0 := pyLower (pyStrip query)
  let numberAndQ1 : Option String × String :=
    match nmSearch q0.toList with
    | some g => (some (String.mk g), pyStrip (String.mk (nmSub q0.toList)))
    | none => (none, q0)
  let number := numberAndQ1.1
  let q1 := numberAndQ1.2
  let flags := (flagsFindall false q1.toList).foldl
    (fun acc m => insertFlag acc (normFlag (String.mk m))) []
  let q2 := pyStrip (String.mk (flagsSub false q1.toList))
  let wordsInit := pySplit q2
  let st := wordsInit.foldl (processWord (!flags.isEmpty))
    { words := wordsInit, number := number, hints := [] }
  { name_tokens := st.words.filter (fun w => pyStrip w ≠ "")
    number := st.number
    flags := flags
    hints := st.hints }

/-! ## `TCGdxAPIService._find_best_match` (app/services/tcgdx_api.py:300-367) -/

/-- A TCGdx search-result candidate, with the fields `_find_best_match`
reads.  `attacks` entries are opaque payloads; only truthiness (list
non-emptiness) matters.  `hp` is the JSON number (Python truthiness: non-zero). -/
structure TcgdxCard where
  id : String := ""
  name : String := ""
  set_name : String := ""
  localId : String := ""
  hp : Option ℤ := none
  types : List String := []
  attacks : List String := []
  deriving DecidableEq, Repr

/-- `normalize` (tcgdx_api.py:317-320): lower-case, then strip every
character outside `[a-zA-Z0-9]`. -/
def normalize (s : String) : String :=
  String.mk ((pyLower s).toList.filter Char.isAlphanum)

/-- Name component of the score: exact normalized match = 100, target
contained in candidate = 50, else 0 (tcgdx_api.py:333-337). -/
def nameScore (targetNameNorm : String) (c : TcgdxCard) : ℤ :=
  if normalize c.name = targetNameNorm then 100
  else if strContains (normalize c.name) targetNameNorm then 50
  else 0

/-- Set component: exact = 30, contained = 15, else 0 (tcgdx_api.py:340-344). -/
def setScore (targetSetNorm : String) (c : TcgdxCard) : ℤ :=
  if normalize c.set_name = targetSetNorm then 30
  else if strContains (normalize c.set_name) targetSetNorm then 15
  else 0

/-- Number component: exact = 20, else 0 (tcgdx_api.py:347-349). -/
def numberScore (targetNumberNorm : String) (c : TcgdxCard) : ℤ :=
  if normalize c.localId = targetNumberNorm then 20 else 0

/-- Completeness bonus: +5 for each truthy `hp`/`types`/`attacks`
(tcgdx_api.py:352-357); `if card.get("hp")` is Python truthiness. -/
def hpTruthy (c : TcgdxCard) : Bool :=
  match c.hp with
  | some v => v ≠ 0
  | none => false

/-- Completeness bonus: +5 for each truthy `hp`/`types`/`attacks`
(tcgdx_api.py:352-357). -/
def completenessBonus (c : TcgdxCard) : ℤ :=
  (if hpTruthy c then 5 else 0) + (if c.types ≠ [] then 5 else 0)
    + (if c.attacks ≠ [] then 5 else 0)

/-- Total score of one candidate against the normalized target triple. -/
def matchScore (tn ts tnum : String) (c : TcgdxCard) : ℤ :=
  nameScore tn c + setScore ts c + numberScore tnum c + completenessBonus c

/-- One iteration of the `best_score`/`best_match` fold
(tcgdx_api.py:359-361): strictly-greater updates, so the earliest candidate
wins ties. -/
def bestStep (tn ts tnum : String) (acc : ℤ × Option TcgdxCard)
    (c : TcgdxCard) : ℤ × Option TcgdxCard :=
  let s := matchScore tn ts tnum c
  if s > acc.1 then (s, some c) else acc

/-- The `best_score`/`best_match` fold of `_find_best_match`
(tcgdx_api.py:326-361); initial score is -1. -/
def bestMatchFold (tn ts tnum : String) (cards : List TcgdxCard) :
    ℤ × Option TcgdxCard :=
  cards.foldl (bestStep tn ts tnum) (-1, none)

/-- `TCGdxAPIService._find_best_match` (tcgdx_api.py:300-367): score every
candidate, keep the strict maximum, return it only when its score is ≥ 50. -/
def findBestMatch (cards : List TcgdxCard) (targetName targetSet targetNumber :
    String) : Option TcgdxCard :=
  let tn := normalize targetName
  let ts := normalize targetSet
  let tnum := normalize targetNumber
  let best := bestMatchFold tn ts tnum cards
  if best.1 ≥ 50 then best.2 else none

/-! ## `TCGdxAPIService.extract_card_data` and the metadata update

(tcgdx_api.py:369-440 and metadata_refresh.py:311-339.)  JSON payloads the
code passes through unchanged (attacks, weaknesses, resistances, legalities)
are modelled as opaque string lists; `_safe_int` is absorbed into typing the
API fields that hold numbers as `Option ℤ`.  Timestamps are abstract naturals
and `datetime.utcnow()` is passed in explicitly. -/

abbrev Timestamp := ℕ

/-- The raw TCGdx API card record, with the fields `extract_card_data`
reads (missing JSON keys are `none` / `[]`). -/
structure ApiCard where
  id : Option String := none
  name : Option String := none
  category : Option String := none
  stage : Option String := none
  hp : Option ℤ := none
  types : List String := []
  retreat : Option ℤ := none
  rarity : Option String := none
  illustrator : Option String := none
  description : Option String := none
  evolveFrom : Option String := none
  setId : Option String := none
  setName : Option String := none
  localId : Option String := none
  image : Option String := none
  attacks : List String := []
  weaknesses : List String := []
  resistances : List String := []
  legal : List (String × Bool) := []
  deriving DecidableEq, Repr

/-- The normalized dict built by `extract_card_data` (tcgdx_api.py:379-431),
with exactly its keys. -/
structure ExtractedData where
  api_id : Option String := none
  name : Option String := none
  supertype : Option String := none
  subtypes : List String := []
  hp : Option ℤ := none
  types : List String := []
  retreat_cost : Option ℤ := none
  rarity : Option String := none
  artist : Option String := none
  flavor_text : Option String := none
  national_pokedex_numbers : List ℤ := []
  evolves_from : Option String := none
  evolves_to : List String := []
  set_id : Option String := none
  set_name : Option String := none
  number : Option String := none
  release_date : Option String := none
  api_image_small : Option String := none
  api_image_large : Option String := none
  abilities : List String := []
  attacks : List String := []
  weaknesses : List String := []
  resistances : List String := []
  legalities : List (String × Bool) := []
  tcg_player_id : Option ℤ := none
  cardmarket_id : Option ℤ := none
  api_last_synced_at : Timestamp := 0
  deriving DecidableEq, Repr

/-- `TCGdxAPIService.extract_card_data` (tcgdx_api.py:369-440).  `now` is the
`datetime.utcnow()` taken at extraction time.  `subtypes` is `[stage]` only
when `stage` is truthy; `retreat_cost` is `_safe_int(get("retreat", 0))`. -/
def extractCardData (api : ApiCard) (now : Timestamp) : ExtractedData :=
  { api_id := api.id
    name := api.name
    supertype := api.category
    subtypes := match api.stage with
      | some s => if s ≠ "" then [s] else []
      | none => []
    hp := api.hp
    types := api.types
    retreat_cost := some (api.retreat.getD 0)
    rarity := api.rarity
    artist := api.illustrator
    flavor_text := api.description
    national_pokedex_numbers := []
    evolves_from := api.evolveFrom
    evolves_to := []
    set_id := api.setId
    set_name := api.setName
    number := api.localId
    release_date := none
    api_image_small := api.image
    api_image_large := api.image
    abilities := []
    attacks := api.attacks
    weaknesses := api.weaknesses
    resistances := api.resistances
    legalities := api.legal
    tcg_player_id := none
    cardmarket_id := none
    api_last_synced_at := now }

/-- The stored `Card` record (app/models.py:25-70), restricted to scalar and
JSON columns.  Attribute values are modelled as the Python object attributes
(nullable columns as `Option`); fields not touched by the metadata update
(`tcg_id`, `image_small`, …) are kept to show they are preserved. -/
structure Card where
  id : ℕ := 0
  tcg_id : String := ""
  name : Option String := none
  set_id : Option String := none
  set_name : Option String := none
  number : Option String := none
  rarity : Option String := none
  supertype : Option String := none
  subtypes : Option (List String) := none
  image_small : String := ""
  image_large : String := ""
  release_date : Option String := none
  created_at : Timestamp := 0
  updated_at : Timestamp := 0
  api_id : Option String := none
  api_last_synced_at : Option Timestamp := none
  hp : Option ℤ := none
  types : Option (List String) := none
  retreat_cost : Option ℤ := none
  abilities : Option (List String) := none
  attacks : Option (List String) := none
  weaknesses : Option (List String) := none
  resistances : Option (List String) := none
  api_image_small : Option String := none
  api_image_large : Option String := none
  artist : Option String := none
  flavor_text : Option String := none
  national_pokedex_numbers : Option (List ℤ) := none
  evolves_from : Option String := none
  evolves_to : Option (List String) := none
  legalities : Option (List (String × Bool)) := none
  tcg_player_id : Option ℤ := none
  cardmarket_id : Option ℤ := none
  deriving DecidableEq, Repr

/-- `MetadataRefreshService._validate_card_data` (metadata_refresh.py:381-449)
specialised to the typed `ExtractedData`: the required-field check rejects a
`None` name (the sync timestamp is always set by `extract_card_data`; the
type/shape coercions are vacuous under typing). -/
def validateCardData (d : ExtractedData) : Bool :=
  !d.name.isNone

/-- The update block of `MetadataRefreshService._process_single_card`
(metadata_refresh.py:311-339): `setattr` every key of the extracted dict that
the `Card` model has — every key qualifies, including `name` — then overwrite
`api_last_synced_at` and `updated_at` with a fresh `datetime.utcnow()`. -/
def applyMetadataUpdate (card : Card) (d : ExtractedData) (now : Timestamp) :
    Card :=
  { card with
    api_id := d.api_id
    name := d.name
    supertype := d.supertype
    subtypes := some d.subtypes
    hp := d.hp
    types := some d.types
    retreat_cost := d.retreat_cost
    rarity := d.rarity
    artist := d.artist
    flavor_text := d.flavor_text
    national_pokedex_numbers := some d.national_pokedex_numbers
    evolves_from := d.evolves_from
    evolves_to := some d.evolves_to
    set_id := d.set_id
    set_name := d.set_name
    number := d.number
    release_date := d.release_date
    api_image_small := d.api_image_small
    api_image_large := d.api_image_large
    abilities := some d.abilities
    attacks := some d.attacks
    weaknesses := some d.weaknesses
    resistances := some d.resistances
    legalities := some d.legalities
    tcg_player_id := d.tcg_player_id
    cardmarket_id := d.cardmarket_id
    api_last_synced_at := some now
    updated_at := now }

/-- The validate-then-update step of `_process_single_card`
(metadata_refresh.py:301-339): the card is written only when validation
passes. -/
def processCardMetadata (card : Card) (d : ExtractedData) (now : Timestamp) :
    Option Card :=
  if validateCardData d then some (applyMetadataUpdate card d now) else none

/-! ## Manual-trigger admission guards (app/api/routes_settings.py)

The job-history ledger is a list of rows; starting a run appends a fresh
`running` row (`_create_job_history`).  The route handlers reject with HTTP
409 before any row is created. -/

/-- A `JobHistory` row restricted to the admission-relevant columns
(app/models.py:122-134). -/
structure JobRow where
  job_type : String := "manual"
  job_name : String := ""
  status : String := "running"
  deriving DecidableEq, Repr

/-- A row belongs to the metadata job category when its `job_name` matches
SQL `LIKE '%metadata%'` (routes_settings.py:500, metadata_refresh.py:582). -/
def isMetadataJob (j : JobRow) : Bool := strContains j.job_name "metadata"

/-- `_create_job_history` (pricing_refresh.py:260-277,
metadata_refresh.py:478-495): append a fresh `running` row. -/
def createJobHistory (jobs : List JobRow) (jobType jobName : String) :
    List JobRow :=
  jobs ++ [{ job_type := jobType, job_name := jobName, status := "running" }]

/-- The admission guard of `trigger_manual_refresh`
(routes_settings.py:84-94): reject when ANY row has status `running`,
regardless of its job category. -/
def pricingGuardBlocks (jobs : List JobRow) : Bool :=
  jobs.any (fun j => j.status == "running")

/-- The admission guard of `trigger_manual_metadata_refresh`
(routes_settings.py:496-507): reject when a `running` row whose name contains
`metadata` exists. -/
def metadataGuardBlocks (jobs : List JobRow) : Bool :=
  jobs.any (fun j => j.status == "running" && isMetadataJob j)

/-- `trigger_manual_refresh` (routes_settings.py:79-130), admission core:
either HTTP 409 (no row created) or the ledger with the new `running` row the
spawned `_refresh_prices_impl` writes. -/
def triggerManualRefresh (jobs : List JobRow) : Except ℕ (List JobRow) :=
  if pricingGuardBlocks jobs then .error 409
  else .ok (createJobHistory jobs "manual" "manual_refresh")

/-- `trigger_manual_metadata_refresh` (routes_settings.py:491-539), admission
core. -/
def triggerManualMetadataRefresh (jobs : List JobRow) :
    Except ℕ (List JobRow) :=
  if metadataGuardBlocks jobs then .error 409
  else .ok (createJobHistory jobs "manual" "manual_metadata_refresh")

/-- The scheduled entry point `refresh_prices` → `_refresh_prices_impl`
(pricing_refresh.py:68-116): no ledger guard at all — the running row is
created unconditionally. -/
def scheduledPricingRun (jobs : List JobRow) : List JobRow :=
  createJobHistory jobs "scheduled" "daily_prices"

/-- The scheduled entry point `refresh_metadata` → `_refresh_metadata_impl`
(metadata_refresh.py:68-133): likewise unguarded. -/
def scheduledMetadataRun (jobs : List JobRow) : List JobRow :=
  createJobHistory jobs "scheduled" "weekly_metadata"

/-! ## The per-item orchestrator loop

(pricing_refresh.py:126-171 and metadata_refresh.py:143-186 — the two loops
are line-for-line identical in the modelled respects.)  Each item either
completes (`_process_single_card` returned a bool), times out
(`asyncio.TimeoutError`), or raises.  The ledger-progress write
`_update_job_progress` sits inside the `try` block, after the
success/failure bookkeeping — the two `except` arms do not reach it. -/

/-- The observable outcome of processing one item. -/
inductive ItemOutcome
  | ok (success : Bool)
  | timeout
  | exc
  deriving DecidableEq, Repr

/-- The in-memory `processed`/`succeeded`/`failed` counters. -/
structure RunCounters where
  processed : ℕ := 0
  succeeded : ℕ := 0
  failed : ℕ := 0
  deriving DecidableEq, Repr

/-- Counter bookkeeping for one loop iteration: `processed += 1` at the top,
then `succeeded`/`failed` according to the outcome. -/
def stepCounters (c : RunCounters) : ItemOutcome → RunCounters
  | .ok true => { c with processed := c.processed + 1,
                         succeeded := c.succeeded + 1 }
  | .ok false => { c with processed := c.processed + 1,
                          failed := c.failed + 1 }
  | .timeout => { c with processed := c.processed + 1,
                         failed := c.failed + 1 }
  | .exc => { c with processed := c.processed + 1, failed := c.failed + 1 }

/-- Whether the iteration reaches `_update_job_progress`: only the
non-exception path does (pricing_refresh.py:141-143 /
metadata_refresh.py:158-160). -/
def writesProgress : ItemOutcome → Bool
  | .ok _ => true
  | .timeout => false
  | .exc => false

/-- One loop iteration over the (counters, ledger-write log) pair: update the
in-memory counters, and append a ledger write only on the non-exception path. -/
def runStep (acc : RunCounters × List RunCounters) (o : ItemOutcome) :
    RunCounters × List RunCounters :=
  let c := stepCounters acc.1 o
  (c, if writesProgress o then acc.2 ++ [c] else acc.2)

/-- The whole per-item loop: final counters plus the sequence of ledger
progress writes (each write carries the counters stored by
`_update_job_progress`). -/
def runItems (items : List ItemOutcome) : RunCounters × List RunCounters :=
  items.foldl runStep ({}, [])

/-- Terminal status written by `_update_job_history`
(pricing_refresh.py:433 / metadata_refresh.py:528):
`"completed" if failed == 0 else "completed_with_errors"`. -/
def finalStatus (failedCount : ℕ) : String :=
  if failedCount = 0 then "completed" else "completed_with_errors"

/-- Terminal status of a run that reaches its `finally` block after
processing `items`. -/
def jobTerminalStatus (items : List ItemOutcome) : String :=
  finalStatus (runItems items).1.failed

/-- An item outcome that counts as a failure (anything but a successful
completion). -/
def isFailureOutcome : ItemOutcome → Bool
  | .ok true => false
  | _ => true

/-- `_mark_running_jobs_as_failed` (pricing_refresh.py:454-476,
metadata_refresh.py:575-599): the whole-run abort path, the only writer of
the `failed` status. -/
def markJobFailed (j : JobRow) : JobRow := { j with status := "failed" }

/-! ## Helper lemmas -/

/-- Splitting the per-item loop at its last item. -/
lemma runItems_append_single (pre : List ItemOutcome) (o : ItemOutcome) :
    runItems (pre ++ [o]) = runStep (runItems pre) o := by
  simp [runItems, List.foldl_append]

/-- Each iteration adds 1 to `failed` exactly for failure outcomes, so the
final `failed` counter counts them. -/
lemma foldl_runStep_failed (items : List ItemOutcome)
    (acc : RunCounters × List RunCounters) :
    ((items.foldl runStep acc).1).failed =
      acc.1.failed + items.countP (fun o => isFailureOutcome o) := by
  induction items generalizing acc with
  | nil => simp
  | cons o rest ih =>
    rw [List.foldl_cons, ih, List.countP_cons]
    cases o with
    | ok success =>
      cases success <;> (simp [runStep, stepCounters, isFailureOutcome]; try omega)
    | timeout =>
      simp [runStep, stepCounters, isFailureOutcome]
      omega
    | exc =>
      simp [runStep, stepCounters, isFailureOutcome]
      omega

/-! ## Claim theorems -/

/-- C1: price-text parsing is claimed to return the exact integer cent value
for every `"$d.dd"`-shaped string.  The code computes
`int(float(price_str) * 100)` in binary64 floating point, and for `"$4.35"`
the rounded product `float("4.35") * 100` is `434.99999999999994…`, which
`int` truncates to `434` instead of the exact `435`.  This theorem evaluates
the embedded code (exact decimal extraction followed by the binary64
roundings the code performs) at the failing input, and also re-checks the
repository's own pinned test values, which happen to round the right way. -/
theorem c1_parsePriceText_truncates_435_to_434 :
    parsePriceText "$4.35" = some 434 ∧
    parsePriceText "$4.35" ≠ some 435 ∧
    parsePriceText "$12.34" = some 1234 ∧
    parsePriceText "$1,234.56" = some 123456 ∧
    parsePriceText "invalid" = none ∧
    parsePriceText "" = none := by
  refine ⟨by decide, by decide, by decide, by decide, by decide, by decide⟩

/-- C7 (counterexample): the claim says the ledger counters are updated after
EVERY processed item, including timeouts and exceptions.  A run whose single
item times out processes one item (`processed = 1` in memory) but performs no
ledger progress write at all, because `_update_job_progress` sits inside the
`try` block that the `except` arms bypass. -/
theorem c7_timeout_item_writes_no_progress :
    (runItems [ItemOutcome.timeout]).2 = [] ∧
    (runItems [ItemOutcome.timeout]).1.processed = 1 ∧
    (runItems [ItemOutcome.exc]).2 = [] := by
  refine ⟨by decide, by decide, by decide⟩

/-- C7 (amended): after an item that completes (returning success or
failure), the ledger is immediately updated with the exact current counters;
after an item that times out or raises, the in-memory counters are updated
but no ledger write occurs before the next item. -/
theorem c7_progress_written_exactly_after_completed_items
    (pre : List ItemOutcome) (o : ItemOutcome) :
    (runItems (pre ++ [o])).1 = stepCounters (runItems pre).1 o ∧
    (runItems (pre ++ [o])).2 =
      (if writesProgress o then
        (runItems pre).2 ++ [stepCounters (runItems pre).1 o]
      else (runItems pre).2) ∧
    writesProgress (ItemOutcome.ok true) = true ∧
    writesProgress (ItemOutcome.ok false) = true ∧
    writesProgress ItemOutcome.timeout = false ∧
    writesProgress ItemOutcome.exc = false ∧
    (stepCounters (runItems pre).1 o).processed =
      (runItems pre).1.processed + 1 := by
  refine ⟨?_, ?_, rfl, rfl, rfl, rfl, ?_⟩
  · rw [runItems_append_single]; rfl
  · rw [runItems_append_single]; rfl
  · cases o with
    | ok s => cases s <;> rfl
    | timeout => rfl
    | exc => rfl

/-- C8: a run that processes a non-empty batch and fails every item
terminates as `completed_with_errors`, never `failed`; the final-status
function can only ever produce `completed`/`completed_with_errors`, and the
`failed` status is written by the whole-run abort path
(`_mark_running_jobs_as_failed`). -/
theorem c8_all_failed_run_is_completed_with_errors
    (items : List ItemOutcome) (hne : items ≠ [])
    (hall : ∀ o ∈ items, isFailureOutcome o = true) :
    jobTerminalStatus items = "completed_with_errors" ∧
    jobTerminalStatus items ≠ "failed" ∧
    (∀ n : ℕ, finalStatus n ≠ "failed") ∧
    (∀ j : JobRow, (markJobFailed j).status = "failed") := by
  have hstat : ∀ n : ℕ, finalStatus n ≠ "failed" := by
    intro n
    unfold finalStatus
    split <;> decide
  have hfail : (runItems items).1.failed ≠ 0 := by
    have hcount : items.countP (fun o => isFailureOutcome o) = items.length :=
      List.countP_eq_length.mpr hall
    have := foldl_runStep_failed items ({}, [])
    have hlen : items.length ≠ 0 := fun h => hne (List.eq_nil_of_length_eq_zero h)
    simp only [runItems]
    omega
  refine ⟨?_, ?_, hstat, fun j => rfl⟩
  · simp [jobTerminalStatus, finalStatus, hfail]
  · simp [jobTerminalStatus, finalStatus, hfail]

/-- C8 witness: a one-item run whose item returns failure. -/
theorem c8_witness :
    jobTerminalStatus [ItemOutcome.ok false] = "completed_with_errors" :=
  (c8_all_failed_run_is_completed_with_errors [ItemOutcome.ok false]
    (by decide) (by decide)).1

/-- C9 (counterexample): the claim says a successful parse of `$0.00`
(0 cents) is treated as a present price.  Both call sites test the parsed
value with Python truthiness (`if not price_value` /
`if price_value`), so a parsed 0 is discarded exactly like a failed parse:
the price-extractor loop records no bucket for an `Ungraded` row priced
`$0.00`, and the search-result extractor sets no `prices` entry. -/
theorem c9_zero_parse_is_dropped :
    parsePriceText "$0.00" = some 0 ∧
    processPriceCell {} { text := "$0.00", rowText := some "Ungraded $0.00" } =
      ({} : GradePrices) ∧
    searchResultPrices (some "$0.00") = none := by
  refine ⟨by decide, by decide, by decide⟩

/-- C9 (amended): callers treat a parsed value of 0 cents exactly like a
failed parse — in both extraction paths a price is recorded only when the
parse yields a non-zero value; `none` and `some 0` are both absence. -/
theorem c9_only_nonzero_parses_recorded
    (p : GradePrices) (cell : PriceCell) (t : String) :
    (parsePriceText (pyStrip cell.text) = some 0 → processPriceCell p cell = p) ∧
    (parsePriceText (pyStrip cell.text) = none → processPriceCell p cell = p) ∧
    (parsePriceText (pyStrip t) = some 0 → searchResultPrices (some t) = none) ∧
    (∀ v : ℤ, v ≠ 0 → parsePriceText (pyStrip t) = some v →
      searchResultPrices (some t) = some v) := by
  refine ⟨?_, ?_, ?_, ?_⟩
  · intro h; simp [processPriceCell, h]
  · intro h; simp [processPriceCell, h]
  · intro h; simp [searchResultPrices, h]
  · intro v hv h; simp [searchResultPrices, h, hv]

/-- C9 witness: a `$5.00` pricebox entry is recorded as 500 cents. -/
theorem c9_witness :
    searchResultPrices (some "$5.00") = some 500 :=
  (c9_only_nonzero_parses_recorded {} { text := "", rowText := none }
    "$5.00").2.2.2 500 (by decide) (by decide)

/-- Invariant of the best-match fold: the tracked score belongs to the
tracked candidate, scores never decrease, every scanned candidate's score is
dominated, and the final candidate is the initial one or comes from the
list. -/
lemma bestMatchFold_spec (tn ts tnum : String) (cards : List TcgdxCard) :
    ∀ acc : ℤ × Option TcgdxCard,
      (∀ c, acc.2 = some c → matchScore tn ts tnum c = acc.1) →
      (∀ c, (cards.foldl (bestStep tn ts tnum) acc).2 = some c →
        matchScore tn ts tnum c = (cards.foldl (bestStep tn ts tnum) acc).1) ∧
      acc.1 ≤ (cards.foldl (bestStep tn ts tnum) acc).1 ∧
      (∀ c ∈ cards,
        matchScore tn ts tnum c ≤ (cards.foldl (bestStep tn ts tnum) acc).1) ∧
      ((cards.foldl (bestStep tn ts tnum) acc).2 = acc.2 ∨
        ∃ c ∈ cards, (cards.foldl (bestStep tn ts tnum) acc).2 = some c) := by
  induction cards with
  | nil =>
    intro acc hacc
    exact ⟨hacc, le_refl _, by simp, Or.inl rfl⟩
  | cons c rest ih =>
    intro acc hacc
    by_cases hgt : matchScore tn ts tnum c > acc.1
    · have hbs : bestStep tn ts tnum acc c = (matchScore tn ts tnum c, some c) := by
        unfold bestStep
        rw [if_pos hgt]
      rw [List.foldl_cons, hbs]
      obtain ⟨h1, h2, h3, h4⟩ := ih (matchScore tn ts tnum c, some c) (by
        intro c0 h0
        injection h0 with h0
        rw [← h0])
      refine ⟨h1, le_trans (le_of_lt hgt) h2, ?_, ?_⟩
      · intro c2 hc2
        rcases List.mem_cons.mp hc2 with h | h
        · subst h; exact h2
        · exact h3 c2 h
      · rcases h4 with h | ⟨c2, hc2, h⟩
        · exact Or.inr ⟨c, List.mem_cons_self c rest, h⟩
        · exact Or.inr ⟨c2, List.mem_cons_of_mem c hc2, h⟩
    · have hbs : bestStep tn ts tnum acc c = acc := by
        unfold bestStep
        rw [if_neg hgt]
      rw [List.foldl_cons, hbs]
      obtain ⟨h1, h2, h3, h4⟩ := ih acc hacc
      refine ⟨h1, h2, ?_, ?_⟩
      · intro c2 hc2
        rcases List.mem_cons.mp hc2 with h | h
        · subst h; exact le_trans (not_lt.mp hgt) h2
        · exact h3 c2 h
      · rcases h4 with h | ⟨c2, hc2, h⟩
        · exact Or.inl h
        · exact Or.inr ⟨c2, List.mem_cons_of_mem c hc2, h⟩

/-- A candidate whose set and number match the target exactly but whose name
shares nothing with it (tcgdx_api.py gives it name score 0). -/
def garbageNameCandidate : TcgdxCard :=
  { name := "zzz", set_name := "Crimson Invasion", localId := "57" }

/-- C4 (counterexample): the claim says an accepted match always carries a
nonzero name signal.  A candidate whose name scores 0 against the target but
whose set (30) and number (20) match exactly reaches the threshold of 50 and
is accepted. -/
theorem c4_accepted_with_zero_name_score :
    findBestMatch [garbageNameCandidate] "Buzzwole" "Crimson Invasion" "57" =
      some garbageNameCandidate ∧
    nameScore (normalize "Buzzwole") garbageNameCandidate = 0 := by
  refine ⟨by decide, by decide⟩

/-- C4 (amended): scoring is name 100/50/0, set 30/15/0, number 20/0 plus
completeness bonuses; the highest-total candidate wins (earliest on ties) and
is returned only when its score is ≥ 50 — but that threshold does NOT
guarantee a nonzero name component, since exact set + exact number alone
total 50. -/
theorem c4_best_match_is_maximal_and_meets_threshold
    (cards : List TcgdxCard) (tname tset tnum : String) (c : TcgdxCard)
    (h : findBestMatch cards tname tset tnum = some c) :
    c ∈ cards ∧
    50 ≤ matchScore (normalize tname) (normalize tset) (normalize tnum) c ∧
    (∀ c2 ∈ cards,
      matchScore (normalize tname) (normalize tset) (normalize tnum) c2 ≤
        matchScore (normalize tname) (normalize tset) (normalize tnum) c) ∧
    matchScore (normalize tname) (normalize tset) (normalize tnum) c =
      nameScore (normalize tname) c + setScore (normalize tset) c +
        numberScore (normalize tnum) c + completenessBonus c := by
  unfold findBestMatch at h
  set tn := normalize tname
  set ts := normalize tset
  set tnum2 := normalize tnum
  by_cases hth : (bestMatchFold tn ts tnum2 cards).1 ≥ 50
  · simp only [hth, if_pos] at h
    obtain ⟨h1, _, h3, h4⟩ :=
      bestMatchFold_spec tn ts tnum2 cards (-1, none) (by simp)
    replace h : (List.foldl (bestStep tn ts tnum2) (-1, none) cards).2 = some c := h
    have hsc : matchScore tn ts tnum2 c =
        (List.foldl (bestStep tn ts tnum2) (-1, none) cards).1 := h1 c h
    have hth2 : (50 : ℤ) ≤ (List.foldl (bestStep tn ts tnum2) (-1, none) cards).1 := hth
    refine ⟨?_, ?_, ?_, rfl⟩
    · rcases h4 with h4 | ⟨c2, hc2, he⟩
      · rw [h] at h4; cases h4
      · rw [h] at he
        injection he with he
        rw [he]; exact hc2
    · omega
    · intro c2 hc2
      have := h3 c2 hc2
      omega
  · simp [hth] at h

/-- C4 witness: an exact-name candidate is accepted and dominates. -/
theorem c4_witness :
    garbageNameCandidate ∈ [garbageNameCandidate] :=
  (c4_best_match_is_maximal_and_meets_threshold [garbageNameCandidate]
    "Buzzwole" "Crimson Invasion" "57" garbageNameCandidate (by decide)).1

/-- C2 (counterexample): the claim says the entry guard is scoped to the same
job category and applies to every start attempt.  In the code:
(a) the manual PRICING guard rejects while only a METADATA-category run is
`running` — it is not category-scoped; and (b) a SCHEDULED pricing run is not
guarded at all: started while a pricing run is already `running`, it creates
a second `running` pricing row instead of being rejected. -/
theorem c2_guard_not_scoped_and_scheduled_unguarded :
    triggerManualRefresh
        [⟨"manual", "manual_metadata_refresh", "running"⟩] =
      Except.error 409 ∧
    isMetadataJob ⟨"manual", "manual_metadata_refresh", "running"⟩ = true ∧
    (scheduledPricingRun [⟨"manual", "manual_refresh", "running"⟩]).countP
      (fun j => j.status == "running" && !isMetadataJob j) = 2 := by
  refine ⟨by rfl, by decide, by decide⟩

/-- C2 (amended): only the MANUAL trigger endpoints are ledger-guarded: the
metadata endpoint rejects with 409 exactly when a `running` metadata-category
row exists, while the pricing endpoint rejects with 409 when ANY `running`
row exists (either category); a rejected start appends no row, an admitted
start appends exactly one fresh `running` row; scheduled runs append their
`running` row unconditionally. -/
theorem c2_manual_guards_and_unguarded_scheduled (jobs : List JobRow) :
    (triggerManualMetadataRefresh jobs = Except.error 409 ↔
      ∃ j ∈ jobs, j.status = "running" ∧ isMetadataJob j = true) ∧
    (triggerManualRefresh jobs = Except.error 409 ↔
      ∃ j ∈ jobs, j.status = "running") ∧
    (metadataGuardBlocks jobs = false →
      triggerManualMetadataRefresh jobs = Except.ok (jobs ++
        [⟨"manual", "manual_metadata_refresh", "running"⟩])) ∧
    (pricingGuardBlocks jobs = false →
      triggerManualRefresh jobs = Except.ok (jobs ++
        [⟨"manual", "manual_refresh", "running"⟩])) ∧
    scheduledPricingRun jobs =
      jobs ++ [⟨"scheduled", "daily_prices", "running"⟩] ∧
    scheduledMetadataRun jobs =
      jobs ++ [⟨"scheduled", "weekly_metadata", "running"⟩] := by
  have hmg : metadataGuardBlocks jobs = true ↔
      ∃ j ∈ jobs, j.status = "running" ∧ isMetadataJob j = true := by
    simp [metadataGuardBlocks, List.any_eq_true]
  have hpg : pricingGuardBlocks jobs = true ↔
      ∃ j ∈ jobs, j.status = "running" := by
    simp [pricingGuardBlocks, List.any_eq_true]
  refine ⟨?_, ?_, ?_, ?_, rfl, rfl⟩
  · rw [← hmg]
    unfold triggerManualMetadataRefresh
    cases hg : metadataGuardBlocks jobs <;> simp [hg, createJobHistory]
  · rw [← hpg]
    unfold triggerManualRefresh
    cases hg : pricingGuardBlocks jobs <;> simp [hg, createJobHistory]
  · intro hg
    simp [triggerManualMetadataRefresh, hg, createJobHistory]
  · intro hg
    simp [triggerManualRefresh, hg, createJobHistory]

/-- C2 witness: an admitted manual metadata start on an empty ledger appends
exactly its own running row. -/
theorem c2_witness :
    triggerManualMetadataRefresh [] = Except.ok
      ([] ++ [⟨"manual", "manual_metadata_refresh", "running"⟩]) :=
  (c2_manual_guards_and_unguarded_scheduled []).2.2.1 (by decide)

/-- C3 (counterexample): the claim says the card's display name is never
overwritten from API data.  `_process_single_card` copies every key of the
extracted dict onto the card — the `name` key included — so a card named
`Old Name` matched to an API record named `New Name` ends up renamed, even
though the extracted record passes validation. -/
theorem c3_refresh_overwrites_name :
    (applyMetadataUpdate { name := some "Old Name" }
      (extractCardData { name := some "New Name" } 3) 7).name =
        some "New Name" ∧
    validateCardData (extractCardData { name := some "New Name" } 3) = true ∧
    processCardMetadata { name := some "Old Name" }
        (extractCardData { name := some "New Name" } 3) 7 =
      some (applyMetadataUpdate { name := some "Old Name" }
        (extractCardData { name := some "New Name" } 3) 7) := by
  refine ⟨by decide, by decide, by decide⟩

/-- C3 (amended): on a successful, validated match the metadata-refresh
update overwrites EVERY extracted field on the stored card — including the
display name — with the normalized value (empty/default values included),
always refreshes `api_last_synced_at` and `updated_at` to now, and leaves
the fields outside the extracted dict untouched. -/
theorem c3_update_overwrites_all_fields_and_bumps_timestamp
    (card : Card) (d : ExtractedData) (now : Timestamp)
    (h : validateCardData d = true) :
    processCardMetadata card d now = some (applyMetadataUpdate card d now) ∧
    (applyMetadataUpdate card d now).name = d.name ∧
    (applyMetadataUpdate card d now).api_id = d.api_id ∧
    (applyMetadataUpdate card d now).supertype = d.supertype ∧
    (applyMetadataUpdate card d now).subtypes = some d.subtypes ∧
    (applyMetadataUpdate card d now).hp = d.hp ∧
    (applyMetadataUpdate card d now).types = some d.types ∧
    (applyMetadataUpdate card d now).retreat_cost = d.retreat_cost ∧
    (applyMetadataUpdate card d now).rarity = d.rarity ∧
    (applyMetadataUpdate card d now).artist = d.artist ∧
    (applyMetadataUpdate card d now).flavor_text = d.flavor_text ∧
    (applyMetadataUpdate card d now).national_pokedex_numbers =
      some d.national_pokedex_numbers ∧
    (applyMetadataUpdate card d now).evolves_from = d.evolves_from ∧
    (applyMetadataUpdate card d now).evolves_to = some d.evolves_to ∧
    (applyMetadataUpdate card d now).set_id = d.set_id ∧
    (applyMetadataUpdate card d now).set_name = d.set_name ∧
    (applyMetadataUpdate card d now).number = d.number ∧
    (applyMetadataUpdate card d now).release_date = d.release_date ∧
    (applyMetadataUpdate card d now).api_image_small = d.api_image_small ∧
    (applyMetadataUpdate card d now).api_image_large = d.api_image_large ∧
    (applyMetadataUpdate card d now).abilities = some d.abilities ∧
    (applyMetadataUpdate card d now).attacks = some d.attacks ∧
    (applyMetadataUpdate card d now).weaknesses = some d.weaknesses ∧
    (applyMetadataUpdate card d now).resistances = some d.resistances ∧
    (applyMetadataUpdate card d now).legalities = some d.legalities ∧
    (applyMetadataUpdate card d now).tcg_player_id = d.tcg_player_id ∧
    (applyMetadataUpdate card d now).cardmarket_id = d.cardmarket_id ∧
    (applyMetadataUpdate card d now).api_last_synced_at = some now ∧
    (applyMetadataUpdate card d now).updated_at = now ∧
    (applyMetadataUpdate card d now).id = card.id ∧
    (applyMetadataUpdate card d now).tcg_id = card.tcg_id ∧
    (applyMetadataUpdate card d now).image_small = card.image_small ∧
    (applyMetadataUpdate card d now).image_large = card.image_large ∧
    (applyMetadataUpdate card d now).created_at = card.created_at := by
  refine ⟨?_, rfl, rfl, rfl, rfl, rfl, rfl, rfl, rfl, rfl, rfl, rfl, rfl, rfl,
    rfl, rfl, rfl, rfl, rfl, rfl, rfl, rfl, rfl, rfl, rfl, rfl, rfl, rfl, rfl,
    rfl, rfl, rfl, rfl, rfl⟩
  simp [processCardMetadata, h]

/-- C3 witness: a concrete validated update. -/
theorem c3_witness :
    processCardMetadata {} { name := some "Pikachu" } 4 =
      some (applyMetadataUpdate {} { name := some "Pikachu" } 4) :=
  (c3_update_overwrites_all_fields_and_bumps_timestamp {}
    { name := some "Pikachu" } 4 (by decide)).1

/-- A recorded bucket value survives one more price-cell iteration: the
`grade_type not in prices` guard keeps the first observed value. -/
lemma processPriceCell_keeps_bucket (p : GradePrices) (cell : PriceCell)
    (b : GradeBucket) (v : ℤ) (h : p.get b = some v) :
    (processPriceCell p cell).get b = some v := by
  unfold processPriceCell
  split
  · exact h
  · split
    · exact h
    · split
      · exact h
      · split
        · exact h
        · rename_i b2 _
          cases b <;> cases b2 <;>
            simp_all [setBucket, GradePrices.get] <;>
            (split <;> simp_all [GradePrices.get])

/-- The first observed value per bucket is kept across the whole cell loop. -/
lemma foldl_processPriceCell_keeps_bucket (cells : List PriceCell)
    (p : GradePrices) (b : GradeBucket) (v : ℤ) (h : p.get b = some v) :
    (cells.foldl processPriceCell p).get b = some v := by
  induction cells generalizing p with
  | nil => exact h
  | cons cell rest ih =>
    exact ih _ (processPriceCell_keeps_bucket p cell b v h)

/-- The spec's scenario page: the only price row is `PSA 10 Black Label` /
`$500.00`. -/
def blackLabelOnlyPage : ProductPage :=
  { fullText := "Buzzwole GX #57 Prices PSA 10 Black Label $500.00"
    hasNotFoundH1 := false
    priceCells := [⟨"$500.00", some "PSA 10 Black Label $500.00"⟩]
    metadata := [] }

/-- C5: the row classifier assigns `ungraded` only to rows without a
sub-grade marker and `psa10` only to rows without a black-label/pristine
qualifier; the `if/elif` chain gives each row at most one bucket with the
`ungraded` rule shadowing the later ones; only the first observed value per
bucket is kept across the loop; and the `PSA 10 Black Label`/`$500.00`-only
page yields no `psa10_cents` (here: no price data at all). -/
theorem c5_bucket_rules (rt : String) (cells : List PriceCell)
    (p : GradePrices) (b : GradeBucket) (v : ℤ) :
    (classifyRow rt = some GradeBucket.ungraded →
      strContains rt "ungraded" = true ∧
      ∀ sub ∈ subGradeMarkers, strContains rt sub = false) ∧
    (classifyRow rt = some GradeBucket.psa10 →
      strContains rt "psa 10" = true ∧ strContains rt "black" = false ∧
      strContains rt "pristine" = false) ∧
    (strContains rt "ungraded" = true →
      classifyRow rt = some GradeBucket.ungraded ∨ classifyRow rt = none) ∧
    (strContains rt "psa 10" = true →
      classifyRow rt ≠ some GradeBucket.psa9) ∧
    (p.get b = some v → (cells.foldl processPriceCell p).get b = some v) ∧
    parsePricesFromHtml blackLabelOnlyPage = none := by
  refine ⟨?_, ?_, ?_, ?_, foldl_processPriceCell_keeps_bucket cells p b v,
    by decide⟩
  · intro h
    unfold classifyRow at h
    split_ifs at h with h1 h2 h3 h4 h5 h6 h7 <;> simp_all [List.any_eq_true]
  · intro h
    unfold classifyRow at h
    split_ifs at h with h1 h2 h3 h4 h5 h6 h7 <;> simp_all
  · intro h1
    unfold classifyRow
    rw [if_pos h1]
    by_cases h2 : (subGradeMarkers.any fun sub => strContains rt sub) = true
    · right; rw [if_pos h2]
    · left; rw [if_neg h2]
  · intro h1 h
    unfold classifyRow at h
    split_ifs at h <;> simp_all

/-- C5 witness: the classifier accepts a plain `Ungraded` row, and the
first-value-kept property holds on a concrete state. -/
theorem c5_witness :
    strContains "ungraded $15.99" "ungraded" = true ∧
    (([⟨"$20.00", some "Ungraded $20.00"⟩] : List PriceCell).foldl
        processPriceCell { ungraded_cents := some 1599 }).get
      GradeBucket.ungraded = some 1599 :=
  ⟨((c5_bucket_rules "ungraded $15.99" [] {} GradeBucket.ungraded 0).1
      (by decide)).1,
   (c5_bucket_rules "" [⟨"$20.00", some "Ungraded $20.00"⟩]
      { ungraded_cents := some 1599 } GradeBucket.ungraded 1599).2.2.2.2.1
      (by decide)⟩

/-- C6: when the requested URL is an offers page whose body yields a
canonical pricing-page link, the scraper re-fetches that link exactly once
(the canonical page, not being an offers page, takes the direct branch) and
returns the canonical fetch's resolved URL as `final_url` together with its
parsed prices. -/
theorem c6_offers_redirect_followed_once
    (fetch : String → Option FetchResult) (url u2 : String)
    (r r2 : FetchResult) (fuel : ℕ)
    (hurl : ¬pyStrip url = "")
    (hoffers : strContains url "/offers?product=" = true)
    (hfetch : fetch url = some r)
    (hlink : extractPricingPageUrl r.html = some u2)
    (hu2 : ¬pyStrip u2 = "")
    (hcanon : strContains u2 "/offers?product=" = false)
    (hfetch2 : fetch u2 = some r2) :
    scrapeProductPageWithUrl fetch (fuel + 2) url =
      some (directScrapeResult r2) ∧
    scrapeProductPageWithUrl fetch (fuel + 2) url =
      scrapeProductPageWithUrl fetch (fuel + 1) u2 ∧
    (directScrapeResult r2).final_url = r2.responseUrl := by
  refine ⟨?_, ?_, ?_⟩
  · simp [scrapeProductPageWithUrl, hurl, hoffers, hfetch, hlink, hu2,
      hcanon, hfetch2]
  · simp [scrapeProductPageWithUrl, hurl, hoffers, hfetch, hlink, hu2,
      hcanon, hfetch2]
  · unfold directScrapeResult
    split <;> rfl

/-- The offers page of the scenario: its body links to the canonical pricing
page via the `See Historic Prices` anchor. -/
def offersPageW : PageHtml :=
  { links := [⟨"See Historic Prices",
      "/game/pokemon-crimson-invasion/buzzwole-gx-57"⟩]
    product := {} }

/-- The canonical pricing page of the scenario, with one ungraded price row. -/
def canonPageW : PageHtml :=
  { links := []
    product := { fullText := "Buzzwole GX #57"
                 priceCells := [⟨"$15.99", some "Ungraded $15.99"⟩] } }

def offersUrlW : String := "https://www.pricecharting.com/offers?product=9049274"

def canonUrlW : String :=
  "https://www.pricecharting.com/game/pokemon-crimson-invasion/buzzwole-gx-57"

/-- The scenario's HTTP world: exactly the two pages above exist. -/
def fetchW : String → Option FetchResult := fun u =>
  if u = offersUrlW then some ⟨offersPageW, offersUrlW⟩
  else if u = canonUrlW then some ⟨canonPageW, canonUrlW⟩
  else none

/-- C6 witness: the offers URL resolves through one redirect to the canonical
page's result. -/
theorem c6_witness :
    scrapeProductPageWithUrl fetchW 5 offersUrlW =
      some (directScrapeResult ⟨canonPageW, canonUrlW⟩) :=
  (c6_offers_redirect_followed_once fetchW offersUrlW canonUrlW
    ⟨offersPageW, offersUrlW⟩ ⟨canonPageW, canonUrlW⟩ 3
    (by decide) (by decide) (by decide) (by decide) (by decide) (by decide)
    (by decide)).1

/-- C10: parsing `buzzwole gx 57` yields name `buzzwole`, flag `gx`, number
`57` and no hints; in the word loop, a remaining all-digit word matching the
standalone-number pattern becomes the card number when flags are present and
no number was captured; a numeric set-hint word likewise becomes the number
in that situation, and is recorded as a hint only when no flags were found
or a number is already captured. -/
theorem c10_flags_force_trailing_number (st : WordLoopState) (w : String)
    (fne : Bool) :
    QueryParser.parse "buzzwole gx 57" =
      { name_tokens := ["buzzwole"], number := some "57", flags := ["gx"],
        hints := [] } ∧
    (pyIsDigit w = true → SET_HINTS.contains w = false → st.number = none →
      standaloneNumMatch w.toList = true →
      (processWord true st w).number = some w) ∧
    (SET_HINTS.contains w = true → pyIsDigit w = true → st.number = none →
      (processWord true st w).number = some w) ∧
    (SET_HINTS.contains w = true → pyIsDigit w = true →
      (processWord fne st w).hints = st.hints ++ [w] →
      st.number ≠ none ∨ fne = false) := by
  refine ⟨by decide, ?_, ?_, ?_⟩
  · intro h1 h2 h3 h4
    have h2m : w ∉ SET_HINTS := by simpa using h2
    have h4m : standaloneNumMatch w.data = true := h4
    simp [processWord, h1, h2m, h3, h4m]
  · intro h1 h2 h3
    have h1m : w ∈ SET_HINTS := by simpa using h1
    simp [processWord, h1m, h2, h3]
  · intro h1 h2 hh
    cases fne with
    | false => exact Or.inr rfl
    | true =>
      cases hnum : st.number with
      | some x => exact Or.inl (by simp [hnum])
      | none =>
        have h1m : w ∈ SET_HINTS := by simpa using h1
        simp [processWord, h1m, h2, hnum] at hh

/-- C10 witness: with a flag present and no number captured, the standalone
digit word `99` becomes the card number. -/
theorem c10_witness :
    (processWord true ⟨["99"], none, []⟩ "99").number = some "99" :=
  (c10_flags_force_trailing_number ⟨["99"], none, []⟩ "99" true).2.1
    (by decide) (by decide) (by decide) (by decide)

end Cataloguer
